import Mathlib

/-!
Shallow embedding of the AI dispatch layer of the clipboard manager
(`src/unnamed/part_000`, the `AIService` class: budget estimator, provider
gateway retry logic, fallback orchestrator, categorization and search
fallbacks).  Texts are modelled as Lean `String` (a wrapper around
`List Char`); JS string primitives (`includes`, `startsWith`, `trim`,
`toLowerCase`, `split`) are implemented on the character list.  Network
effects (HTTP responses, embedding vectors, model replies) are passed in
as explicit oracle parameters so that each code path is a pure function of
the oracle.
-/

/-! ## Generic JS string primitives -/

/-- JS `needle.isPrefixOf`-style check used to build `String.prototype.includes`:
`isSubstring needle haystack` is true iff `needle` occurs contiguously in
`haystack`. -/
def isSubstring (needle : List Char) : List Char → Bool
  | [] => needle.isEmpty
  | c :: rest => needle.isPrefixOf (c :: rest) || isSubstring needle rest

/-- JS `s.includes(needle)`. -/
def jsIncludes (s needle : String) : Bool :=
  isSubstring needle.toList s.toList

/-- JS `s.startsWith(p)`. -/
def jsStartsWith (s p : String) : Bool :=
  p.toList.isPrefixOf s.toList

/-- JS `s.trim()` (whitespace stripped from both ends). -/
def jsTrim (l : List Char) : List Char :=
  ((l.dropWhile Char.isWhitespace).reverse.dropWhile Char.isWhitespace).reverse

/-- JS `s.toLowerCase()` on a character list (the source only relies on
ASCII case folding). -/
def jsLower (l : List Char) : List Char :=
  l.map Char.toLower

/-- JS `s.split(/\s/)-style` splitter: cuts at every whitespace character.
The source uses `/\s+/`, which collapses separator runs; the two differ
only in empty tokens, which every caller immediately discards with a
`length > 2` filter. -/
def splitWsAux (acc : List Char) : List Char → List (List Char)
  | [] => [acc.reverse]
  | c :: cs =>
      if c.isWhitespace then acc.reverse :: splitWsAux [] cs
      else splitWsAux (c :: acc) cs

/-! ## Budget Estimator (`estimateTokens`, `truncateText`, `isTextTooLarge`) -/

/-- `MAX_CATEGORIZE_LENGTH` from the `AIService` constructor. -/
def MAX_CATEGORIZE_LENGTH : Nat := 1000

/-- `MAX_SEARCH_ITEMS` from the `AIService` constructor. -/
def MAX_SEARCH_ITEMS : Nat := 10

/-- `estimateTokens(text)`: `if (!text) return 0; return Math.ceil(text.length / 4)`. -/
def estimateTokens (text : String) : Nat :=
  if text = "" then 0 else (text.length + 3) / 4

/-- `truncateText(text, maxLength)`: unchanged when the length is within the
bound (the `!text` guard of the source is subsumed: an empty string always
has length 0), else the first `maxLength` characters followed by the
marker `"..."` (`text.substring(0, maxLength) + '...'`). -/
def truncateText (text : String) (maxLength : Nat) : String :=
  if text.length ≤ maxLength then text
  else String.mk (text.toList.take maxLength) ++ "..."

/-- `isTextTooLarge(text, maxLength)`: `text && text.length > maxLength`
(an empty string is falsy in JS, hence never too large). -/
def isTextTooLarge (text : String) (maxLength : Nat) : Bool :=
  decide (¬ text = "") && decide (maxLength < text.length)

/-! ## Fallback Orchestrator (`chatCompletion`) -/

/-- The two providers of the dispatch layer. -/
inductive Provider where
  | groq
  | openai
deriving DecidableEq

/-- The mutable credential fields of `AIService`. -/
structure Keys where
  openaiApiKey : Option String
  groqApiKey : Option String

/-- JS `array.join(' ')`. -/
def joinSpace : List String → String
  | [] => ""
  | [s] => s
  | s :: rest => s ++ " " ++ joinSpace rest

/-- The `totalText` assembled by `chatCompletion`:
`systemText + ' ' + messages.map(m => m.content || '').join(' ')`.
Messages are modelled by their content strings. -/
def assembledText (messages : List String) (systemPrompt : Option String) : String :=
  systemPrompt.getD "" ++ " " ++ joinSpace messages

/-- The `Request too large` error message built by `chatCompletion`. -/
def tooLargeMessage (estimatedTokens : Nat) : String :=
  "Request too large (estimated " ++ toString estimatedTokens ++
  " tokens, max ~4000). Please reduce text size."

/-- `chatCompletion(messages, systemPrompt, 'openai')`.  The gateway call
(`makeRequest` on `/chat/completions` followed by the
`response.choices[0].message.content` extraction) is abstracted as an
oracle `gw : Provider → Except String String`; the provider determines
the model and `max_tokens` of the payload, which is otherwise fixed by
`messages`/`systemPrompt`.  With provider `'openai'` every fallback guard
(`provider === 'groq' && this.openaiApiKey`) is false, so the oversize
check throws and a gateway failure is rethrown unchanged. -/
def chatCompletionOpenai (gw : Provider → Except String String)
    (messages : List String) (systemPrompt : Option String) :
    Except String String :=
  let estimatedTokens := estimateTokens (assembledText messages systemPrompt)
  if 4000 < estimatedTokens then .error (tooLargeMessage estimatedTokens)
  else gw .openai

/-- `chatCompletion(messages, systemPrompt, provider)`.  The `'groq'` case
can recurse once into the `'openai'` case (never further), so the
recursion is unrolled through `chatCompletionOpenai`.  On the groq path:
an oversize estimate reroutes to openai when an OpenAI key exists and
otherwise throws; a gateway failure of any kind falls back to openai when
an OpenAI key exists (the source splits this into a too-large/TPM branch
and a generic branch, both performing the identical recursive call) and
otherwise rethrows the original error. -/
def chatCompletion (keys : Keys) (gw : Provider → Except String String)
    (messages : List String) (systemPrompt : Option String) :
    Provider → Except String String
  | .openai => chatCompletionOpenai gw messages systemPrompt
  | .groq =>
      let estimatedTokens := estimateTokens (assembledText messages systemPrompt)
      if 4000 < estimatedTokens then
        if keys.openaiApiKey.isSome then
          chatCompletionOpenai gw messages systemPrompt
        else .error (tooLargeMessage estimatedTokens)
      else
        match gw .groq with
        | .ok content => .ok content
        | .error e =>
            if keys.openaiApiKey.isSome then
              chatCompletionOpenai gw messages systemPrompt
            else .error e

/-- A 16100-character message content, used to exercise the oversize path
of `chatCompletion` (estimated tokens 4026 > 4000). -/
def bigText : String := String.mk (List.replicate 16100 'a')

/-! ## Heuristic classifier (`fallbackCategorize`) and `categorizeText` -/

/-- The fixed category list of `categorizeText`. -/
def categories : List String :=
  ["code", "email", "link", "note", "password", "number", "command",
   "json", "xml", "html", "other"]

/-- `fallbackCategorize(text)`: the order-sensitive heuristic classifier
(`!text` is true in JS exactly for the empty string input). -/
def fallbackCategorize (text : String) : String :=
  if text = "" then "other"
  else if jsIncludes text "@" && jsIncludes text "." then "email"
  else if jsStartsWith text "http://" || jsStartsWith text "https://" then "link"
  else if !(jsTrim text.toList).isEmpty && (jsTrim text.toList).all Char.isDigit then "number"
  else if jsIncludes text "\x7b" || jsIncludes text "[" then "json"
  else if jsIncludes text "<" && jsIncludes text ">" then "html"
  else if jsIncludes text "function" || jsIncludes text "const " ||
          jsIncludes text "var " || jsIncludes text "class " then "code"
  else if jsIncludes text "<?xml" || jsIncludes text "<xml" then "xml"
  else if jsStartsWith text "#!" || jsStartsWith text "sudo " ||
          jsStartsWith text "npm " || jsStartsWith text "git " then "command"
  else "note"

/-- `categorizeText(text)`.  The chat call is abstracted as an oracle
`ai : Except String String` (the outcome of `chatCompletion` on the
categorization prompt).  Oversized text skips AI; a successful reply is
trimmed, lowercased and matched against `categories` by substring
containment with `'other'` as default; every `catch` branch of the source
(rate limit, size, or any other error) ends in `fallbackCategorize`. -/
def categorizeText (ai : Except String String) (text : String) : String :=
  if isTextTooLarge text MAX_CATEGORIZE_LENGTH then fallbackCategorize text
  else
    match ai with
    | .ok category =>
        let cleanCategory := jsLower (jsTrim category.toList)
        (categories.find? (fun c => isSubstring c.toList cleanCategory)).getD "other"
    | .error _ => fallbackCategorize text

/-! ## Provider Gateway (`extractWaitTime`, `isRateLimitError`, `makeRequest`) -/

/-- Character class `[\d.]` of the wait-time regex. -/
def isWaitChar (c : Char) : Bool :=
  c.isDigit || c = '.'

/-- Case-insensitive literal prefix test (the `i` flag of the regex; the
literal is lowercase, so folding the subject suffices). -/
def ciStartsWith (l pat : List Char) : Bool :=
  (l.take pat.length).map Char.toLower == pat

/-- One anchored attempt of `/try again in ([\d.]+)s/i` at the head of `l`:
the literal, then a non-empty greedy `[\d.]` run, then `s`.  Since `s` is
not in the class, the greedy run cannot backtrack to a shorter capture. -/
def tryMatchAt (l : List Char) : Option (List Char) :=
  let pat := "try again in ".toList
  if ciStartsWith l pat then
    let rest := l.drop pat.length
    let run := rest.takeWhile isWaitChar
    if run.isEmpty then none
    else
      match rest.drop run.length with
      | c :: _ => if c.toLower = 's' then some run else none
      | [] => none
  else none

/-- Regex search: try every start position left to right, first full match
wins; returns the capture group. -/
def regexFindCapture : List Char → Option (List Char)
  | [] => tryMatchAt []
  | c :: rest =>
      match tryMatchAt (c :: rest) with
      | some run => some run
      | none => regexFindCapture rest

/-- Decimal digit run to a natural number. -/
def digitsToNat (ds : List Char) : Nat :=
  ds.foldl (fun a c => a * 10 + (c.toNat - 48)) 0

/-- JS `parseFloat` restricted to a non-empty `[\d.]` run: integer part,
optional dot, fractional part, parsing stops at a second dot.  The exact
value `mantissa / 10 ^ fracDigits` is kept as the pair
`(mantissa, fracDigits)`; `none` models `NaN` (a bare run of dots). -/
def parseFloatRun (l : List Char) : Option (Nat × Nat) :=
  let intPart := l.takeWhile Char.isDigit
  match l.drop intPart.length with
  | '.' :: rest2 =>
      let fracPart := rest2.takeWhile Char.isDigit
      if intPart.isEmpty && fracPart.isEmpty then none
      else some (digitsToNat intPart * 10 ^ fracPart.length + digitsToNat fracPart,
                 fracPart.length)
  | _ => if intPart.isEmpty then none else some (digitsToNat intPart, 0)

/-- `extractWaitTime(errorMessage)`: match `/try again in ([\d.]+)s/i`,
then `Math.ceil(parseFloat(capture) * 1000)`, computed exactly on the
parsed value `mantissa / 10 ^ k` as the ceiling division
`⌈mantissa * 1000 / 10 ^ k⌉ = (mantissa * 1000 + 10 ^ k - 1) / 10 ^ k`.
`none` models both a failed match (`return null`) and a `NaN` parse; at
the sole call site JS treats `null` and `NaN` identically (both falsy
under `||`). -/
def extractWaitTime (errorMessage : String) : Option Nat :=
  (regexFindCapture errorMessage.toList).bind fun run =>
    (parseFloatRun run).map fun seconds =>
      (seconds.1 * 1000 + 10 ^ seconds.2 - 1) / 10 ^ seconds.2

/-- `isRateLimitError(error)` on the error message string. -/
def isRateLimitError (message : String) : Bool :=
  jsIncludes message "rate limit" || jsIncludes message "Rate limit" ||
  jsIncludes message "TPM" || jsIncludes message "tokens per minute"

/-- `maxRetries` of `makeRequest`. -/
def maxRetries : Nat := 3

/-- Wait before retry `retryCount`:
`this.extractWaitTime(error.message) || (1000 * Math.pow(2, retryCount))`
(a parsed wait of `0` is falsy in JS, hence also falls back). -/
def retryWait (message : String) (retryCount : Nat) : Nat :=
  match extractWaitTime message with
  | some w => if w = 0 then 1000 * 2 ^ retryCount else w
  | none => 1000 * 2 ^ retryCount

/-- Outcome of one HTTP round trip of `makeRequest`, as seen by the
response handler: a parsed body without `error` (resolved), a parsed body
with an `error.message` (the rate-limit/reject branch), an unparseable
body (`Failed to parse AI response`), or a transport error (`req.on
('error')`). -/
inductive NetOutcome where
  | ok (body : String)
  | apiError (message : String)
  | badBody
  | transportError (message : String)
deriving DecidableEq

/-- Result of `makeRequest` together with the trace of scheduled retry
delays (the `setTimeout` durations, in milliseconds, in order). -/
structure ReqOutcome where
  result : Except String String
  waits : List Nat

/-- `makeRequest(endpoint, data, provider, retryCount)` for a fixed
endpoint/payload/provider, with the network abstracted as an oracle
`net : Nat → NetOutcome` giving the response of the attempt with each
`retryCount`.  A missing key rejects before any network call (message
abstracted from the provider-specific `... API key not set.`); a
rate-limit error below `maxRetries` schedules a re-invocation with
`retryCount + 1` after `retryWait`; anything else resolves or rejects
directly. -/
def makeRequest (apiKey : Option String) (net : Nat → NetOutcome)
    (retryCount : Nat) : ReqOutcome :=
  match apiKey with
  | none => ⟨.error "API key not set.", []⟩
  | some _ =>
      match net retryCount with
      | .ok body => ⟨.ok body, []⟩
      | .badBody => ⟨.error "Failed to parse AI response", []⟩
      | .transportError m => ⟨.error m, []⟩
      | .apiError m =>
          if h : isRateLimitError m = true ∧ retryCount < maxRetries then
            let rest := makeRequest apiKey net (retryCount + 1)
            ⟨rest.result, retryWait m retryCount :: rest.waits⟩
          else ⟨.error m, []⟩
termination_by maxRetries - retryCount
decreasing_by
  have h2 := h.2
  simp only [maxRetries] at h2 ⊢
  omega

/-! ## Cosine similarity (`cosineSimilarity`) -/

/-- Result of a JS floating-point computation, idealized over the reals:
an ordinary number, `NaN`, or an infinity.  Rounding is abstracted away
(the spec only asks for values "within floating tolerance"). -/
inductive JSNum where
  | num (x : ℝ)
  | nan
  | posInf
  | negInf

open Classical in
/-- JS division on idealized numbers: `0 / 0` is `NaN`, `x / 0` with
`x ≠ 0` is a signed infinity, otherwise real division. -/
noncomputable def jsDiv (a b : ℝ) : JSNum :=
  if b = 0 then (if a = 0 then .nan else if 0 < a then .posInf else .negInf)
  else .num (a / b)

/-- The `dotProduct` accumulator of `cosineSimilarity` (the loop runs over
the common index range; in the only reachable case the lengths are equal). -/
noncomputable def dotProductList (v w : List ℝ) : ℝ :=
  (List.zipWith (fun a b => a * b) v w).sum

/-- The `normA`/`normB` accumulators of `cosineSimilarity` (sum of squares,
before the square root). -/
noncomputable def sumSquares (v : List ℝ) : ℝ :=
  (v.map (fun x => x * x)).sum

open Classical in
/-- `cosineSimilarity(vecA, vecB)`: `0` on length mismatch (the `!vecA ||
!vecB` null guard cannot fire for actual arrays — even empty arrays are
truthy in JS), otherwise `dotProduct / (Math.sqrt(normA) *
Math.sqrt(normB))` with JS division semantics — there is no zero-norm
guard in the source. -/
noncomputable def cosineSimilarity (vecA vecB : List ℝ) : JSNum :=
  if vecA.length ≠ vecB.length then .num 0
  else jsDiv (dotProductList vecA vecB)
    (Real.sqrt (sumSquares vecA) * Real.sqrt (sumSquares vecB))

/-! ## Semantic search paths (`semanticSearch`) -/

/-- A clipboard candidate as read by `semanticSearch`: its text and an
optional precomputed embedding. -/
structure SearchItem (ε : Type) where
  text : String
  embedding : Option ε
deriving DecidableEq

/-- The keyword tokens: `queryLower.split(/\s+/).filter(w => w.length > 2)`. -/
def searchWords (queryLower : List Char) : List (List Char) :=
  (splitWsAux [] queryLower).filter (fun w => 2 < w.length)

/-- The keyword-fallback filter predicate of `semanticSearch`:
`words.length === 0 || words.some(word => itemText.includes(word))`. -/
def keywordMatch (queryLower : List Char) (text : String) : Bool :=
  let itemText := jsLower text.toList
  let words := searchWords queryLower
  words.isEmpty || words.any (fun w => isSubstring w itemText)

/-- The final keyword fallback of `semanticSearch` (lines 378-387): filter
the FULL caller-supplied `items` list by `keywordMatch` against the
lowercased query and take the first `limit` matches. -/
def keywordSearch {ε : Type} (safeQuery : String) (items : List (SearchItem ε))
    (limit : Nat) : List (SearchItem ε) :=
  (items.filter (fun item => keywordMatch (jsLower safeQuery.toList) item.text)).take limit

/-- The candidate list of the keyword-search test vector of the spec. -/
def demoItems : List (SearchItem Unit) :=
  [⟨"buy milk", none⟩, ⟨"call mom", none⟩, ⟨"fix the bug", none⟩]

/-- `item.embedding && item.embedding.length > 0`, the filter of the
embedding path.  Embedding vectors carry abstract integer entries: the
paths under verification only move items around, never inspect entries. -/
def hasEmbedding (item : SearchItem (List Int)) : Bool :=
  match item.embedding with
  | some v => decide (0 < v.length)
  | none => false

/-- Stable descending insertion by similarity score (JS `Array.sort` with
comparator `(a, b) => b.similarity - a.similarity` is a stable comparison
sort; which stable sort is used does not affect the properties proved). -/
def insertDesc (x : SearchItem (List Int) × Int) :
    List (SearchItem (List Int) × Int) → List (SearchItem (List Int) × Int)
  | [] => [x]
  | y :: ys => if y.2 < x.2 then x :: y :: ys else y :: insertDesc x ys

/-- Stable descending insertion sort by similarity score. -/
def sortDesc : List (SearchItem (List Int) × Int) →
    List (SearchItem (List Int) × Int)
  | [] => []
  | x :: xs => insertDesc x (sortDesc xs)

/-- The embedding path of `semanticSearch` (lines 308-333): cap the
candidates at `MAX_SEARCH_ITEMS`, keep those carrying an embedding, score
each (the cosine-similarity float is abstracted as an integer-valued
oracle `sim` — only the ordering matters here), sort descending, and
return the items of the first `limit` scored pairs. -/
def embeddingPathResults (sim : SearchItem (List Int) → Int)
    (items : List (SearchItem (List Int))) (limit : Nat) :
    List (SearchItem (List Int)) :=
  let limitedItems := items.take MAX_SEARCH_ITEMS
  let itemsWithEmbeddings := limitedItems.filter hasEmbedding
  let similarities := itemsWithEmbeddings.map (fun item => (item, sim item))
  ((sortDesc similarities).take limit).map Prod.fst

/-- The LLM-ranking path of `semanticSearch` (lines 341-365): the list of
integers parsed out of the model response (`response.match(/\d+/g)`, all
non-negative) is the oracle `numbers`; each becomes the 0-based index
`n - 1` (JS subtraction, hence `Int`), out-of-range indices are dropped,
and the first `limit` survivors are looked up in the capped candidate
list (the in-range lookup is expressed with `get?`/`filterMap`). -/
def llmPathResults {ε : Type} (numbers : List Nat) (items : List (SearchItem ε))
    (limit : Nat) : List (SearchItem ε) :=
  let limitedItems := items.take MAX_SEARCH_ITEMS
  let indices : List Int := (numbers.map (fun n => (n : Int) - 1)).filter
    (fun i => decide (0 ≤ i) && decide (i < (limitedItems.length : Int)))
  (indices.take limit).filterMap (fun (i : Int) => limitedItems.get? i.toNat)

/-- An 11-candidate list whose only match for query `"bug"` sits at index
10, beyond the `MAX_SEARCH_ITEMS` cap. -/
def items11 : List (SearchItem (List Int)) :=
  [⟨"alpha", none⟩, ⟨"beta", none⟩, ⟨"gamma", none⟩, ⟨"delta", none⟩,
   ⟨"epsilon", none⟩, ⟨"zeta", none⟩, ⟨"eta", none⟩, ⟨"theta", none⟩,
   ⟨"iota", none⟩, ⟨"kappa", none⟩, ⟨"fix the bug", none⟩]

/-! ## Theorems -/

/-- Helper: the retry-delay trace of `makeRequest` started at `retryCount`
`r` has length at most `maxRetries - r` (induction on the spare fuel `d`). -/
theorem waits_length_le (apiKey : Option String) (net : Nat → NetOutcome) :
    ∀ d r, maxRetries - r ≤ d →
      ((makeRequest apiKey net r).waits).length ≤ maxRetries - r := by
  intro d
  induction d with
  | zero =>
      intro r hr
      rw [makeRequest.eq_def]
      match apiKey with
      | none => simp
      | some key =>
          match hnet : net r with
          | .ok body => simp
          | .badBody => simp
          | .transportError m => simp
          | .apiError m =>
              simp only
              split_ifs with h
              · omega
              · simp
  | succ n ih =>
      intro r hr
      rw [makeRequest.eq_def]
      match apiKey with
      | none => simp
      | some key =>
          match hnet : net r with
          | .ok body => simp
          | .badBody => simp
          | .transportError m => simp
          | .apiError m =>
              simp only
              split_ifs with h
              · have hrec := ih (r + 1) (by omega)
                simp only [List.length_cons]
                omega
              · simp

/-- C3: on a provider error classified as a rate limit, `makeRequest`
retries at most `maxRetries = 3` times and then escalates the error of the
final attempt; the delay before each retry is the provider-advised wait
when one parses (and is non-zero) and the exponential backoff
`1000 * 2 ^ retryCount` otherwise; `extractWaitTime` yields exactly 2500 ms
on a message containing `try again in 2.5s` and no value on a message
without that pattern. -/
theorem makeRequest_rateLimit_retries
    (k : String) (net : Nat → NetOutcome) (m0 m1 m2 m3 : String)
    (h0 : net 0 = .apiError m0) (h1 : net 1 = .apiError m1)
    (h2 : net 2 = .apiError m2) (h3 : net 3 = .apiError m3)
    (r0 : isRateLimitError m0 = true) (r1 : isRateLimitError m1 = true)
    (r2 : isRateLimitError m2 = true) (r3 : isRateLimitError m3 = true) :
    makeRequest (some k) net 0 =
      ⟨.error m3, [retryWait m0 0, retryWait m1 1, retryWait m2 2]⟩ ∧
    (∀ (key : Option String) (net2 : Nat → NetOutcome),
        ((makeRequest key net2 0).waits).length ≤ maxRetries) ∧
    (∀ (msg : String) (r : Nat),
        extractWaitTime msg = none → retryWait msg r = 1000 * 2 ^ r) ∧
    (∀ (msg : String) (r w : Nat),
        extractWaitTime msg = some w → w ≠ 0 → retryWait msg r = w) ∧
    extractWaitTime "Please try again in 2.5s" = some 2500 ∧
    extractWaitTime "Rate limit reached, please slow down" = none := by
  refine ⟨?_, ?_, ?_, ?_, by decide, by decide⟩
  · have s3 : makeRequest (some k) net 3 = ⟨.error m3, []⟩ := by
      rw [makeRequest.eq_def]; simp [h3, r3, maxRetries]
    have s2 : makeRequest (some k) net 2 = ⟨.error m3, [retryWait m2 2]⟩ := by
      rw [makeRequest.eq_def]; simp [h2, r2, maxRetries, s3]
    have s1 : makeRequest (some k) net 1 =
        ⟨.error m3, [retryWait m1 1, retryWait m2 2]⟩ := by
      rw [makeRequest.eq_def]; simp [h1, r1, maxRetries, s2]
    rw [makeRequest.eq_def]; simp [h0, r0, maxRetries, s1]
  · intro key net2
    simpa using waits_length_le key net2 maxRetries 0 (by omega)
  · intro msg r hnone
    unfold retryWait
    rw [hnone]
  · intro msg r w hsome hw
    unfold retryWait
    rw [hsome]
    simp [hw]

/-- Witness for C3: a constantly rate-limited network makes four attempts,
waits the three exponential backoffs (no advised wait parses from the
message), and escalates the final error. -/
theorem makeRequest_rateLimit_retries_witness :
    makeRequest (some "key")
      (fun _ => NetOutcome.apiError "Rate limit reached for TPM") 0 =
      ⟨.error "Rate limit reached for TPM", [1000, 2000, 4000]⟩ := by
  have h := (makeRequest_rateLimit_retries "key"
      (fun _ => NetOutcome.apiError "Rate limit reached for TPM")
      "Rate limit reached for TPM" "Rate limit reached for TPM"
      "Rate limit reached for TPM" "Rate limit reached for TPM"
      rfl rfl rfl rfl (by decide) (by decide) (by decide) (by decide)).1
  have e : [retryWait "Rate limit reached for TPM" 0,
            retryWait "Rate limit reached for TPM" 1,
            retryWait "Rate limit reached for TPM" 2] = [1000, 2000, 4000] := by
    decide
  rw [h, e]

/-- C1: with the groq provider preferred, the assembled prompt within the
size ceiling, and the groq gateway call failing with any error, the call
is transparently retried against openai and that outcome — success or
failure — is returned whenever an OpenAI key is configured; with no OpenAI
key the original groq failure propagates unchanged. -/
theorem chatCompletion_groq_fallback
    (keys : Keys) (gw : Provider → Except String String)
    (messages : List String) (systemPrompt : Option String) (e : String)
    (hsize : estimateTokens (assembledText messages systemPrompt) ≤ 4000)
    (hfail : gw .groq = .error e) :
    (keys.openaiApiKey.isSome = true →
      chatCompletion keys gw messages systemPrompt .groq = gw .openai) ∧
    (keys.openaiApiKey = none →
      chatCompletion keys gw messages systemPrompt .groq = .error e) := by
  have hnot : ¬ 4000 < estimateTokens (assembledText messages systemPrompt) := by
    omega
  constructor
  · intro hsome
    simp only [chatCompletion, chatCompletionOpenai, if_neg hnot, hfail, hsome,
      if_true, if_pos]
  · intro hnone
    simp only [chatCompletion, if_neg hnot, hfail, hnone, Option.isSome_none,
      Bool.false_eq_true, if_false]

/-- Witness for C1: groq fails, openai succeeds, the caller sees the
openai success. -/
theorem chatCompletion_groq_fallback_witness :
    chatCompletion ⟨some "sk-oa", some "gk"⟩
      (fun p => match p with | .groq => .error "boom" | .openai => .ok "recovered")
      ["hello"] none .groq = .ok "recovered" := by
  have h := (chatCompletion_groq_fallback ⟨some "sk-oa", some "gk"⟩
      (fun p => match p with | .groq => .error "boom" | .openai => .ok "recovered")
      ["hello"] none "boom" (by decide) rfl).1 rfl
  exact h.trans rfl

/-- Helper: the length of the oversized message. -/
theorem bigText_length : bigText.length = 16100 := by
  show (List.replicate 16100 'a').length = 16100
  exact List.length_replicate 16100 'a'

/-- Helper: length of the assembled oversized prompt. -/
theorem assembledText_bigText_length :
    (assembledText [bigText] none).length = 16101 := by
  show (("" ++ " ") ++ bigText).length = 16101
  rw [String.length_append, bigText_length]
  decide

/-- Helper: token estimate of the oversized prompt. -/
theorem estimateTokens_bigText :
    estimateTokens (assembledText [bigText] none) = 4026 := by
  unfold estimateTokens
  have hne : ¬ assembledText [bigText] none = "" := by
    intro h
    have h2 := assembledText_bigText_length
    rw [h] at h2
    exact absurd h2 (by decide)
  rw [if_neg hne, assembledText_bigText_length]

/-- C2 (code bug): with BOTH keys configured and a groq-preferred call
whose estimate (4026 tokens) exceeds 4000, the reroute
`chatCompletion(messages, systemPrompt, 'openai')` re-enters the same
size check, whose ceiling is provider-independent, and throws the
`Request too large` error: the caller receives the error for EVERY
gateway behaviour `gw`, i.e. no request is ever issued to the primary
provider, contrary to the fallback comment in the source. -/
theorem chatCompletion_oversized_never_reroutes :
    ∀ gw : Provider → Except String String,
      chatCompletion ⟨some "sk-oa", some "gk"⟩ gw [bigText] none .groq =
        .error (tooLargeMessage 4026) := by
  intro gw
  simp only [chatCompletion, chatCompletionOpenai, estimateTokens_bigText]
  norm_num
theorem fallbackCategorize_mem_categories (text : String) :
    fallbackCategorize text ∈ categories := by
  unfold fallbackCategorize
  split_ifs <;> decide

/-- Helper: `String.length` is the length of the underlying character list. -/
theorem string_length_eq_data (s : String) : s.length = s.data.length := rfl

/-- Helper: `String.toList` is the underlying character list. -/
theorem string_toList_eq_data (s : String) : s.toList = s.data := rfl

/-- Helper: the character list of `String.mk`. -/
theorem string_mk_data (l : List Char) : (String.mk l).data = l := rfl

/-- Helper: string append concatenates the underlying character lists. -/
theorem string_data_append (a b : String) : (a ++ b).data = a.data ++ b.data := by
  cases a; cases b; rfl

/-- C4 (amended): `categorizeText` always returns one of the 11 fixed
labels, whatever the chat-call outcome (in particular it never throws,
also with no credentials, where the call errors out); every call failure
falls back to the heuristic classifier.  (An unmatched model response
yields `"other"` directly, not the heuristic label — see the
counterexample.) -/
theorem categorizeText_total_fallback (ai : Except String String) (text : String) :
    categorizeText ai text ∈ categories ∧
    (∀ e : String, categorizeText (Except.error e) text = fallbackCategorize text) := by
  constructor
  · unfold categorizeText
    split_ifs
    · exact fallbackCategorize_mem_categories text
    · match ai with
      | .error e => exact fallbackCategorize_mem_categories text
      | .ok category =>
          simp only
          match hfind : categories.find?
              (fun c => isSubstring c.toList (jsLower (jsTrim category.toList))) with
          | some c =>
              simp only [hfind, Option.getD_some]
              exact List.mem_of_find?_eq_some hfind
          | none =>
              simp only [hfind, Option.getD_none]
              decide
  · intro e
    unfold categorizeText
    split_ifs <;> rfl

/-- Counterexample for C4 as stated: a model response matching no category
(`"banana"`) yields `"other"` directly, while the heuristic classifier
would label the same text `"email"` — so an unmatched model response does
NOT fall back to the heuristic classifier. -/
theorem categorizeText_unmatched_counterexample :
    categorizeText (Except.ok "banana") "test@example.com" = "other" ∧
    fallbackCategorize "test@example.com" = "email" := by decide

/-- C6: `truncateText` returns the text unchanged when its length is
within the bound, otherwise the first `N` characters followed by the
`"..."` marker; the result length is at most `N + 3`; and truncation is
idempotent. -/
theorem truncateText_spec (t : String) (N : Nat) :
    (t.length ≤ N → truncateText t N = t) ∧
    (N < t.length → truncateText t N = String.mk (t.toList.take N) ++ "...") ∧
    (truncateText t N).length ≤ N + 3 ∧
    truncateText (truncateText t N) N = truncateText t N := by
  by_cases h : t.length ≤ N
  · have he : truncateText t N = t := by unfold truncateText; rw [if_pos h]
    exact ⟨fun _ => he, fun hlt => absurd h (by omega), by rw [he]; omega,
      by rw [he, he]⟩
  · push_neg at h
    have htr : truncateText t N = String.mk (t.toList.take N) ++ "..." := by
      unfold truncateText; rw [if_neg (by omega)]
    have hdl : t.data.length = t.length := rfl
    have hdl2 : t.toList.length = t.length := rfl
    have h3 : ("..." : String).data.length = 3 := rfl
    have hlen : (truncateText t N).length = N + 3 := by
      rw [htr, string_length_eq_data, string_data_append, List.length_append,
        string_mk_data, List.length_take, h3]
      omega
    have htake : (truncateText t N).toList.take N = t.toList.take N := by
      rw [htr, string_toList_eq_data, string_data_append, string_mk_data]
      rw [List.take_append_of_le_length (by rw [List.length_take]; omega)]
      rw [List.take_take, min_self]
    refine ⟨fun hle => absurd hle (by omega), fun _ => htr, by omega, ?_⟩
    conv_lhs => rw [truncateText]
    rw [if_neg (by omega), htake, ← htr]

/-- Witness for C6: both branches and idempotence at concrete inputs. -/
theorem truncateText_spec_witness :
    truncateText "hello" 3 = "hel..." ∧ truncateText "hi" 5 = "hi" ∧
    truncateText (truncateText "hello" 3) 3 = truncateText "hello" 3 := by
  have h1 := truncateText_spec "hello" 3
  have h2 := truncateText_spec "hi" 5
  refine ⟨?_, h2.1 (by decide), h1.2.2.2⟩
  rw [h1.2.1 (by decide)]
  decide

/-- C8: the heuristic classifier on the test vectors of the spec. -/
theorem fallbackCategorize_vectors :
    fallbackCategorize "test@example.com" = "email" ∧
    fallbackCategorize "https://example.com" = "link" ∧
    fallbackCategorize "12345" = "number" ∧
    fallbackCategorize "\x7b\"a\":1\x7d" = "json" ∧
    fallbackCategorize "<div>hi</div>" = "html" ∧
    fallbackCategorize "const x = 1" = "code" ∧
    fallbackCategorize "git status" = "command" ∧
    fallbackCategorize "just a note" = "note" := by decide

/-- C9: the heuristic classifier only returns labels from a 10-element set,
never returns "password", and returns "other" exactly on empty input; so
"password" and (on non-empty text) "other" are unreachable through the
non-AI path. -/
theorem fallbackCategorize_range (text : String) :
    fallbackCategorize text ∈
      ["other", "email", "link", "number", "json", "html", "code", "xml",
       "command", "note"] ∧
    fallbackCategorize text ≠ "password" ∧
    (fallbackCategorize text = "other" ↔ text = "") := by
  unfold fallbackCategorize
  split_ifs with h <;>
    refine ⟨by decide, by decide, ?_⟩
  · exact iff_of_true rfl h
  all_goals exact iff_of_false (by decide) h

/-- Helper: a sum of squares is non-negative. -/
theorem sumSquares_nonneg (v : List ℝ) : 0 ≤ sumSquares v := by
  apply List.sum_nonneg
  intro x hx
  obtain ⟨a, _, rfl⟩ := List.mem_map.mp hx
  exact mul_self_nonneg a

/-- Helper: a sum of squares vanishes exactly when every entry vanishes. -/
theorem sumSquares_eq_zero_iff (v : List ℝ) :
    sumSquares v = 0 ↔ ∀ x ∈ v, x = 0 := by
  induction v with
  | nil => simp [sumSquares]
  | cons a l ih =>
      have hc : sumSquares (a :: l) = a * a + sumSquares l := by
        simp [sumSquares]
      rw [hc]
      rw [add_eq_zero_iff_of_nonneg (mul_self_nonneg a) (sumSquares_nonneg l)]
      simp [mul_self_eq_zero, ih]

/-- Helper: the dot product of a vector with itself is its sum of squares. -/
theorem dotProductList_self (v : List ℝ) : dotProductList v v = sumSquares v := by
  induction v with
  | nil => rfl
  | cons a l ih =>
      simp only [dotProductList, sumSquares, List.zipWith_cons_cons, List.map_cons,
        List.sum_cons] at ih ⊢
      rw [ih]

/-- Helper: the dot product with an all-zero left factor is zero. -/
theorem dotProductList_zero_left (v w : List ℝ) (h : ∀ x ∈ v, x = 0) :
    dotProductList v w = 0 := by
  induction v generalizing w with
  | nil => rfl
  | cons a l ih =>
      cases w with
      | nil => rfl
      | cons b m =>
          have ha : a = 0 := h a (by simp)
          have hrest := ih m (fun x hx => h x (by simp [hx]))
          simp [dotProductList] at hrest ⊢
          simp [ha, hrest]

/-- Helper: the dot product with an all-zero right factor is zero. -/
theorem dotProductList_zero_right (v w : List ℝ) (h : ∀ x ∈ w, x = 0) :
    dotProductList v w = 0 := by
  induction v generalizing w with
  | nil => rfl
  | cons a l ih =>
      cases w with
      | nil => rfl
      | cons b m =>
          have hb : b = 0 := h b (by simp)
          have hrest := ih m (fun x hx => h x (by simp [hx]))
          simp [dotProductList] at hrest ⊢
          simp [hb, hrest]

/-- C5 (amended): self-similarity of a non-zero vector is exactly 1;
similarity of vectors of different lengths (which covers exactly one of
them being empty) is exactly 0; but when the lengths agree and either norm
is zero — including both vectors empty — the source divides 0 by 0 and the
result is `NaN`, not 0. -/
theorem cosineSimilarity_spec (v w : List ℝ) :
    ((∃ x ∈ v, x ≠ 0) → cosineSimilarity v v = JSNum.num 1) ∧
    (v.length ≠ w.length → cosineSimilarity v w = JSNum.num 0) ∧
    (v.length = w.length → sumSquares v = 0 ∨ sumSquares w = 0 →
      cosineSimilarity v w = JSNum.nan) := by
  refine ⟨?_, ?_, ?_⟩
  · rintro ⟨x, hx, hx0⟩
    have hs : sumSquares v ≠ 0 := by
      rw [ne_eq, sumSquares_eq_zero_iff]
      intro hall
      exact hx0 (hall x hx)
    unfold cosineSimilarity
    rw [if_neg (by simp)]
    rw [dotProductList_self, Real.mul_self_sqrt (sumSquares_nonneg v)]
    unfold jsDiv
    rw [if_neg hs, div_self hs]
  · intro hne
    unfold cosineSimilarity
    rw [if_pos hne]
  · intro hlen hz
    unfold cosineSimilarity
    rw [if_neg (by simp [hlen])]
    have hdot : dotProductList v w = 0 := by
      rcases hz with hzv | hzw
      · exact dotProductList_zero_left v w ((sumSquares_eq_zero_iff v).mp hzv)
      · exact dotProductList_zero_right v w ((sumSquares_eq_zero_iff w).mp hzw)
    have hden : Real.sqrt (sumSquares v) * Real.sqrt (sumSquares w) = 0 := by
      rcases hz with hzv | hzw
      · rw [hzv, Real.sqrt_zero, zero_mul]
      · rw [hzw, Real.sqrt_zero, mul_zero]
    rw [hdot, hden]
    unfold jsDiv
    rw [if_pos rfl, if_pos rfl]

/-- Counterexample for C5 as stated: a zero-norm pair of equal length and
the pair of empty vectors both produce `NaN`, not the claimed exact 0. -/
theorem cosineSimilarity_nan_counterexample :
    cosineSimilarity [(0 : ℝ)] [1] = JSNum.nan ∧
    cosineSimilarity ([] : List ℝ) [] = JSNum.nan ∧
    JSNum.nan ≠ JSNum.num 0 := by
  refine ⟨?_, ?_, fun h => JSNum.noConfusion h⟩
  · exact (cosineSimilarity_spec [(0 : ℝ)] [1]).2.2 rfl
      (Or.inl (by simp [sumSquares]))
  · exact (cosineSimilarity_spec ([] : List ℝ) []).2.2 rfl
      (Or.inl (by simp [sumSquares]))

/-- Witness for C5: all three branches at concrete vectors. -/
theorem cosineSimilarity_spec_witness :
    cosineSimilarity [(1 : ℝ), 2] [1, 2] = JSNum.num 1 ∧
    cosineSimilarity [(1 : ℝ), 2] [1] = JSNum.num 0 ∧
    cosineSimilarity [(0 : ℝ)] [5] = JSNum.nan := by
  refine ⟨(cosineSimilarity_spec [(1 : ℝ), 2] [1, 2]).1 ⟨1, by simp, one_ne_zero⟩,
    (cosineSimilarity_spec [(1 : ℝ), 2] [1]).2.1 (by simp),
    (cosineSimilarity_spec [(0 : ℝ)] [5]).2.2 rfl (Or.inl (by simp [sumSquares]))⟩

/-- Helper: membership after a descending insertion. -/
theorem mem_insertDesc {x a : SearchItem (List Int) × Int}
    {l : List (SearchItem (List Int) × Int)} (h : x ∈ insertDesc a l) :
    x = a ∨ x ∈ l := by
  induction l with
  | nil =>
      simp [insertDesc] at h
      exact Or.inl h
  | cons y ys ih =>
      unfold insertDesc at h
      split_ifs at h
      · simp at h
        rcases h with h | h
        · exact Or.inl h
        · exact Or.inr (by simp [h])
      · rcases List.mem_cons.mp h with hy | hrest
        · exact Or.inr (by simp [hy])
        · rcases ih hrest with ha | hmem
          · exact Or.inl ha
          · exact Or.inr (by simp [hmem])

/-- Helper: the descending sort only permutes its input (membership side). -/
theorem mem_sortDesc {x : SearchItem (List Int) × Int}
    {l : List (SearchItem (List Int) × Int)} (h : x ∈ sortDesc l) : x ∈ l := by
  induction l with
  | nil => simp [sortDesc] at h
  | cons y ys ih =>
      unfold sortDesc at h
      rcases mem_insertDesc h with hy | hmem
      · simp [hy]
      · exact List.mem_cons_of_mem _ (ih hmem)

/-- C7: the keyword fallback is the `keywordMatch` filter (lowercased
query split on whitespace, tokens of length at most 2 discarded, match on
any-token-substring or unconditionally when no token survives) followed by
a take: it preserves the original candidate order (sublist), returns at
most `limit` matches, is total, and on candidates
buy milk / call mom / fix the bug with query bug returns exactly
fix the bug. -/
theorem keywordSearch_spec :
    (∀ (ε : Type) (q : String) (items : List (SearchItem ε)) (lim : Nat),
        keywordSearch q items lim =
          (items.filter (fun item => keywordMatch (jsLower q.toList) item.text)).take lim ∧
        List.Sublist (keywordSearch q items lim) items ∧
        (keywordSearch q items lim).length ≤ lim) ∧
    keywordSearch "bug" demoItems 5 = [⟨"fix the bug", none⟩] := by
  refine ⟨fun ε q items lim => ⟨rfl, ?_, ?_⟩, by decide⟩
  · exact (List.take_sublist _ _).trans (List.filter_sublist _)
  · exact List.length_take_le _ _

/-- C10: the embedding path and the LLM-ranking path can only return
candidates among the first `MAX_SEARCH_ITEMS = 10` (they operate on the
capped prefix), for every similarity oracle and every parsed index list;
the keyword fallback filters the FULL candidate list: on an 11-item list
whose only match sits at index 10 it returns exactly that item, which the
capped prefix does not contain. -/
theorem searchPaths_capped :
    (∀ (sim : SearchItem (List Int) → Int) (items : List (SearchItem (List Int)))
        (limit : Nat) (x : SearchItem (List Int)),
        x ∈ embeddingPathResults sim items limit → x ∈ items.take MAX_SEARCH_ITEMS) ∧
    (∀ (ε : Type) (numbers : List Nat) (items : List (SearchItem ε)) (limit : Nat)
        (x : SearchItem ε),
        x ∈ llmPathResults numbers items limit → x ∈ items.take MAX_SEARCH_ITEMS) ∧
    keywordSearch "bug" items11 5 = [⟨"fix the bug", none⟩] ∧
    (⟨"fix the bug", none⟩ : SearchItem (List Int)) ∉ items11.take MAX_SEARCH_ITEMS := by
  refine ⟨?_, ?_, by decide, by decide⟩
  · intro sim items limit x hx
    unfold embeddingPathResults at hx
    simp only [List.mem_map] at hx
    obtain ⟨p, hp, rfl⟩ := hx
    have hp2 := mem_sortDesc (List.mem_of_mem_take hp)
    simp only [List.mem_map] at hp2
    obtain ⟨item, hitem, rfl⟩ := hp2
    exact List.mem_of_mem_filter hitem
  · intro ε numbers items limit x hx
    unfold llmPathResults at hx
    simp only [List.mem_filterMap] at hx
    obtain ⟨i, hi, hget⟩ := hx
    exact List.get?_mem hget

/-- Witness for C10: both capped paths applied at concrete inputs. -/
theorem searchPaths_capped_witness :
    (⟨"doc", some [1]⟩ : SearchItem (List Int)) ∈
      ([⟨"doc", some [1]⟩] : List (SearchItem (List Int))).take MAX_SEARCH_ITEMS ∧
    (⟨"memo", (none : Option (List Int))⟩ : SearchItem (List Int)) ∈
      ([⟨"memo", none⟩] : List (SearchItem (List Int))).take MAX_SEARCH_ITEMS := by
  constructor
  · exact searchPaths_capped.1 (fun _ => 0) [⟨"doc", some [1]⟩] 5 _ (by decide)
  · exact searchPaths_capped.2.1 (List Int) [1] [⟨"memo", none⟩] 5 _ (by decide)
